import Mathlib

/-!
Verification development for the AES-GCM-512 repository (src/aes.h, src/aes.c).

The C sources are shallowly embedded: bytes are `Nat` values (reduced `% 256`
exactly where the C performs a `uint8_t` cast or where a `uint8_t` cell is
written), 16-byte blocks and buffers are `List Nat`, and the in-place C
functions become pure functions returning the new buffer contents.
All definitions follow the generic portable C fallback paths (the
architecture-specific intrinsic paths are compile-time disabled placeholders).
-/

set_option maxRecDepth 200000
set_option maxHeartbeats 10000000

namespace AESGCM

/-! ## Build configuration (aes.h lines 26-53, aes.c lines 42-56)

aes.h defines all of AES128, AES192, AES256, AES512 to 1.  aes.h tests
AES512 first when choosing AES_KEYLEN / Nr / AES_keyExpSize, while aes.c
tests AES256 first when choosing Nk.  The conditional chains are embedded
in the exact order the preprocessor evaluates them. -/

def AES128 : Nat := 1
def AES192 : Nat := 1
def AES256 : Nat := 1
def AES512 : Nat := 1

def AES_BLOCKLEN : Nat := 16

-- aes.h lines 34-53: branch order AES512, AES256, AES192, else AES128
def AES_KEYLEN : Nat :=
  if AES512 = 1 then 64 else if AES256 = 1 then 32 else if AES192 = 1 then 24 else 16

def Nr : Nat :=
  if AES512 = 1 then 22 else if AES256 = 1 then 14 else if AES192 = 1 then 12 else 10

def AES_keyExpSize : Nat :=
  if AES512 = 1 then 368 else if AES256 = 1 then 240 else if AES192 = 1 then 208 else 176

def Nb : Nat := 4

-- aes.c lines 44-56: branch order AES256, AES192, AES512, else AES128
def Nk : Nat :=
  if AES256 = 1 then 8 else if AES192 = 1 then 6 else if AES512 = 1 then 16 else 4

def AES_GCM_TAG_LEN : Nat := 16
def AES_GCM_IV_LEN : Nat := 12

/-! ## Tables (aes.c lines 79-121) -/

def sbox : List Nat := [
  0x63, 0x7c, 0x77, 0x7b, 0xf2, 0x6b, 0x6f, 0xc5, 0x30, 0x01, 0x67, 0x2b, 0xfe, 0xd7, 0xab, 0x76,
  0xca, 0x82, 0xc9, 0x7d, 0xfa, 0x59, 0x47, 0xf0, 0xad, 0xd4, 0xa2, 0xaf, 0x9c, 0xa4, 0x72, 0xc0,
  0xb7, 0xfd, 0x93, 0x26, 0x36, 0x3f, 0xf7, 0xcc, 0x34, 0xa5, 0xe5, 0xf1, 0x71, 0xd8, 0x31, 0x15,
  0x04, 0xc7, 0x23, 0xc3, 0x18, 0x96, 0x05, 0x9a, 0x07, 0x12, 0x80, 0xe2, 0xeb, 0x27, 0xb2, 0x75,
  0x09, 0x83, 0x2c, 0x1a, 0x1b, 0x6e, 0x5a, 0xa0, 0x52, 0x3b, 0xd6, 0xb3, 0x29, 0xe3, 0x2f, 0x84,
  0x53, 0xd1, 0x00, 0xed, 0x20, 0xfc, 0xb1, 0x5b, 0x6a, 0xcb, 0xbe, 0x39, 0x4a, 0x4c, 0x58, 0xcf,
  0xd0, 0xef, 0xaa, 0xfb, 0x43, 0x4d, 0x33, 0x85, 0x45, 0xf9, 0x02, 0x7f, 0x50, 0x3c, 0x9f, 0xa8,
  0x51, 0xa3, 0x40, 0x8f, 0x92, 0x9d, 0x38, 0xf5, 0xbc, 0xb6, 0xda, 0x21, 0x10, 0xff, 0xf3, 0xd2,
  0xcd, 0x0c, 0x13, 0xec, 0x5f, 0x97, 0x44, 0x17, 0xc4, 0xa7, 0x7e, 0x3d, 0x64, 0x5d, 0x19, 0x73,
  0x60, 0x81, 0x4f, 0xdc, 0x22, 0x2a, 0x90, 0x88, 0x46, 0xee, 0xb8, 0x14, 0xde, 0x5e, 0x0b, 0xdb,
  0xe0, 0x32, 0x3a, 0x0a, 0x49, 0x06, 0x24, 0x5c, 0xc2, 0xd3, 0xac, 0x62, 0x91, 0x95, 0xe4, 0x79,
  0xe7, 0xc8, 0x37, 0x6d, 0x8d, 0xd5, 0x4e, 0xa9, 0x6c, 0x56, 0xf4, 0xea, 0x65, 0x7a, 0xae, 0x08,
  0xba, 0x78, 0x25, 0x2e, 0x1c, 0xa6, 0xb4, 0xc6, 0xe8, 0xdd, 0x74, 0x1f, 0x4b, 0xbd, 0x8b, 0x8a,
  0x70, 0x3e, 0xb5, 0x66, 0x48, 0x03, 0xf6, 0x0e, 0x61, 0x35, 0x57, 0xb9, 0x86, 0xc1, 0x1d, 0x9e,
  0xe1, 0xf8, 0x98, 0x11, 0x69, 0xd9, 0x8e, 0x94, 0x9b, 0x1e, 0x87, 0xe9, 0xce, 0x55, 0x28, 0xdf,
  0x8c, 0xa1, 0x89, 0x0d, 0xbf, 0xe6, 0x42, 0x68, 0x41, 0x99, 0x2d, 0x0f, 0xb0, 0x54, 0xbb, 0x16]

def getSBoxValue (num : Nat) : Nat := sbox.getD num 0

-- aes.c lines 120-121: the 11-entry round-constant table
def Rcon : List Nat := [0x8d, 0x01, 0x02, 0x04, 0x08, 0x10, 0x20, 0x40, 0x80, 0x1b, 0x36]

/-! ## Key expansion (aes.c lines 140-211)

The `Rcon[i/Nk]` access is modelled through `List.get?`, so an index past the
end of the 11-entry table surfaces as `none` instead of an out-of-bounds read;
the whole expansion is `Option`-valued for that reason. -/

-- one iteration of the loop at aes.c lines 155-210, for word index i;
-- the accumulated schedule grows by the four bytes of word i
def keyExpansionStep (roundKey : List Nat) (i : Nat) : Option (List Nat) :=
  let k := (i - 1) * 4
  let tempa := [roundKey.getD k 0, roundKey.getD (k + 1) 0,
                roundKey.getD (k + 2) 0, roundKey.getD (k + 3) 0]
  let tempa? : Option (List Nat) :=
    if i % Nk = 0 then
      -- RotWord then SubWord, then XOR byte 0 with Rcon[i/Nk]
      let t := [getSBoxValue (tempa.getD 1 0), getSBoxValue (tempa.getD 2 0),
                getSBoxValue (tempa.getD 3 0), getSBoxValue (tempa.getD 0 0)]
      match Rcon.get? (i / Nk) with
      | none => none
      | some rc => some [(t.getD 0 0) ^^^ rc, t.getD 1 0, t.getD 2 0, t.getD 3 0]
    else if 6 < Nk ∧ i % Nk = 4 then
      -- extra SubWord for keys larger than 192 bits (aes.c lines 193-204)
      some [getSBoxValue (tempa.getD 0 0), getSBoxValue (tempa.getD 1 0),
            getSBoxValue (tempa.getD 2 0), getSBoxValue (tempa.getD 3 0)]
    else
      some tempa
  match tempa? with
  | none => none
  | some t =>
      let k2 := (i - Nk) * 4
      some (roundKey ++ [(roundKey.getD k2 0) ^^^ (t.getD 0 0),
                         (roundKey.getD (k2 + 1) 0) ^^^ (t.getD 1 0),
                         (roundKey.getD (k2 + 2) 0) ^^^ (t.getD 2 0),
                         (roundKey.getD (k2 + 3) 0) ^^^ (t.getD 3 0)])

def KeyExpansion (key : List Nat) : Option (List Nat) :=
  -- first loop: the first Nk words are the key itself (aes.c lines 146-152)
  let init := (List.range (Nk * 4)).map (fun j => key.getD j 0)
  -- second loop: i = Nk .. Nb*(Nr+1) - 1 (aes.c lines 155-210)
  (List.range' Nk (Nb * (Nr + 1) - Nk)).foldl
    (fun acc i => acc.bind (fun rkey => keyExpansionStep rkey i)) (some init)

/-! ## Block cipher (aes.c lines 233-479, generic C fallback of Cipher) -/

-- aes.c lines 233-243; state and round key are flat 16-byte views,
-- (*state)[i][j] is flat index i*4+j and matches the byte order of the buffer
def AddRoundKey (round : Nat) (s roundKey : List Nat) : List Nat :=
  (List.range 16).map (fun k => (s.getD k 0) ^^^ (roundKey.getD (round * 16 + k) 0))

-- aes.c lines 247-257
def SubBytes (s : List Nat) : List Nat :=
  (List.range 16).map (fun k => getSBoxValue (s.getD k 0))

-- aes.c lines 262-288: the three rotation groups write, in flat indices,
-- new[1]=old[5], new[5]=old[9], new[9]=old[13], new[13]=old[1];
-- new[2]=old[10], new[10]=old[2], new[6]=old[14], new[14]=old[6];
-- new[3]=old[15], new[15]=old[11], new[11]=old[7], new[7]=old[3]
def ShiftRows (s : List Nat) : List Nat :=
  [s.getD 0 0,  s.getD 5 0,  s.getD 10 0, s.getD 15 0,
   s.getD 4 0,  s.getD 9 0,  s.getD 14 0, s.getD 3 0,
   s.getD 8 0,  s.getD 13 0, s.getD 2 0,  s.getD 7 0,
   s.getD 12 0, s.getD 1 0,  s.getD 6 0,  s.getD 11 0]

-- aes.c lines 290-293; the uint8_t return truncates to 8 bits
def xtime (x : Nat) : Nat :=
  ((x * 2) ^^^ (((x >>> 7) &&& 1) * 0x1b)) % 256

-- aes.c lines 296-309, one column (flat bytes s0..s3); every right-hand side
-- uses the pre-update values (Tmp is precomputed, t saves the old s0)
def mixSingleColumn (s0 s1 s2 s3 : Nat) : List Nat :=
  let tmp := s0 ^^^ s1 ^^^ s2 ^^^ s3
  [s0 ^^^ (xtime (s0 ^^^ s1)) ^^^ tmp,
   s1 ^^^ (xtime (s1 ^^^ s2)) ^^^ tmp,
   s2 ^^^ (xtime (s2 ^^^ s3)) ^^^ tmp,
   s3 ^^^ (xtime (s3 ^^^ s0)) ^^^ tmp]

def MixColumns (s : List Nat) : List Nat :=
  mixSingleColumn (s.getD 0 0) (s.getD 1 0) (s.getD 2 0) (s.getD 3 0) ++
  mixSingleColumn (s.getD 4 0) (s.getD 5 0) (s.getD 6 0) (s.getD 7 0) ++
  mixSingleColumn (s.getD 8 0) (s.getD 9 0) (s.getD 10 0) (s.getD 11 0) ++
  mixSingleColumn (s.getD 12 0) (s.getD 13 0) (s.getD 14 0) (s.getD 15 0)

-- aes.c lines 413-479 (generic fallback): initial AddRoundKey, rounds
-- 1..Nr-1 with MixColumns, final round Nr without MixColumns
def Cipher (s roundKey : List Nat) : List Nat :=
  let afterMain :=
    (List.range' 1 (Nr - 1)).foldl
      (fun st round => AddRoundKey round (MixColumns (ShiftRows (SubBytes st))) roundKey)
      (AddRoundKey 0 s roundKey)
  AddRoundKey Nr (ShiftRows (SubBytes afterMain)) roundKey

/-! ## Counter increment (aes.c lines 749-755, and the identical inline loop
at aes.c lines 598-603): increment the last 4 bytes as a big-endian 32-bit
integer, byte-wise with carry, wrapping silently -/

def increment_counter_j0 (c : List Nat) : List Nat :=
  let c1 := c.set 15 ((c.getD 15 0 + 1) % 256)
  if c1.getD 15 0 ≠ 0 then c1 else
  let c2 := c1.set 14 ((c1.getD 14 0 + 1) % 256)
  if c2.getD 14 0 ≠ 0 then c2 else
  let c3 := c2.set 13 ((c2.getD 13 0 + 1) % 256)
  if c3.getD 13 0 ≠ 0 then c3 else
  c3.set 12 ((c3.getD 12 0 + 1) % 256)

/-! ## CTR mode (aes.c lines 582-610)

At every block boundary the source encrypts the keystream buffer in place
(`Cipher((state_t*)buffer, ...)`), increments the counter, and then executes
`memcpy(buffer, current_counter_block, AES_BLOCKLEN)`, which overwrites the
just-encrypted block with the incremented counter before any byte of it is
XORed into `buf`.  Consequently `buffer` always equals the raw counter when
the XOR loop reads it, and the encryption result is discarded; the `_enc`
binding below records the discarded call. -/

-- the loop body, structurally recursive on a fuel that counts remaining
-- bytes; one 16-byte block costs one unit of fuel, so fuel = initial buffer
-- length never runs out and the zero-fuel arm is reached only with an empty
-- buffer, where it agrees with the loop exiting
def ctrGo (roundKey : List Nat) : Nat → List Nat → List Nat → List Nat
  | 0, _, _ => []
  | fuel + 1, counter, buf =>
    if buf = [] then []
    else
      let _enc := Cipher counter roundKey
      let next := increment_counter_j0 counter
      (List.zipWith Nat.xor (buf.take 16) next) ++
        ctrGo roundKey fuel next (buf.drop 16)

def AES_CTR_xcrypt_buffer (roundKey counter buf : List Nat) : List Nat :=
  ctrGo roundKey buf.length counter buf

/-! ## GF(2^128) multiplication (aes.c lines 627-715, generic C fallback) -/

def GCM_POLYNOMIAL : Nat := 0xE1

-- the k-loop over res[k] ^= V[k] (aes.c lines 693-695), and the tag loops
-- at lines 856-858 and 919-921: all touch exactly indices 0..15
def xorBlock (a b : List Nat) : List Nat :=
  (List.range 16).map (fun k => (a.getD k 0) ^^^ (b.getD k 0))

-- aes.c lines 698-710: save V[15]&1, shift the 128-bit register right one
-- bit (byte k receives the carry from byte k-1, which still holds its old
-- value because the C loop walks k = 15 down to 0), then conditionally XOR
-- the reduction byte 0xE1 into V[0]
def gmulShiftV (v : List Nat) : List Nat :=
  let lsbSet := (v.getD 15 0) &&& 1
  let shifted := (List.range 16).map (fun k =>
    ((v.getD k 0) >>> 1) |||
      (if 0 < k ∧ (v.getD (k - 1) 0) &&& 1 = 1 then 0x80 else 0))
  if lsbSet = 1 then shifted.set 0 ((shifted.getD 0 0) ^^^ GCM_POLYNOMIAL) else shifted

-- aes.c lines 689-712: Z starts at 0, V starts at y; bits of x are consumed
-- byte 0 first, MSB first within each byte.  This definition gives the
-- function's effect when `res` does NOT alias `x` — the reference reading
-- that the specification's bit-serial algorithm describes.
def ghash_gmul (x y : List Nat) : List Nat :=
  ((List.range 16).foldl (fun acc i =>
      (List.range 8).foldl (fun (p : List Nat × List Nat) j =>
        (if ((x.getD i 0) >>> (7 - j)) &&& 1 = 1 then xorBlock p.1 p.2 else p.1,
         gmulShiftV p.2)) acc)
    (List.replicate 16 0, y)).1

-- The only call sites of ghash_gmul in the program are the two calls
-- `ghash_gmul(S, H, S)` inside ghash_update (aes.c lines 730 and 744),
-- where `res` ALIASES `x`: both are the accumulator S.  The function's
-- first statement `memset(res, 0, 16)` therefore erases x before any of
-- its bits is read, so the bit test `(x[i] >> (7-j)) & 1` reads the live
-- (zeroed, then never re-set) res storage.  This definition models that
-- aliased execution: the bit test reads the pair's first component — the
-- shared res/x storage — and the incoming value of the x argument is dead
-- after the memset (the binder is kept to mirror the call shape).
def ghash_gmul_aliased (_x y : List Nat) : List Nat :=
  ((List.range 16).foldl (fun acc i =>
      (List.range 8).foldl (fun (p : List Nat × List Nat) j =>
        (if ((p.1.getD i 0) >>> (7 - j)) &&& 1 = 1 then xorBlock p.1 p.2 else p.1,
         gmulShiftV p.2)) acc)
    (List.replicate 16 0, y)).1

/-! ## GHASH update (aes.c lines 720-746)

Both multiplications are the aliased calls `ghash_gmul(S, H, S)`, so the
value the C code stores back into S is `ghash_gmul_aliased H` — the XOR of
S with the data block (lines 726-728 / 740-742) is erased by the callee's
memset before the multiplication loop can observe it. -/

-- the block loop of ghash_update, structurally recursive on a fuel that
-- counts remaining bytes (one 16-byte block costs one unit, so fuel =
-- initial data length never runs out; the zero-fuel arm is reached only
-- with empty data, where it agrees with the loop exiting)
def ghashGo (h : List Nat) : Nat → List Nat → List Nat → List Nat
  | 0, s, _ => s
  | fuel + 1, s, data =>
    if 16 ≤ data.length then
      -- full block: S ^= data[i..i+15]; then the aliased ghash_gmul(S, H, S)
      ghashGo h fuel (ghash_gmul_aliased (xorBlock s (data.take 16)) h) (data.drop 16)
    else if data.length = 0 then s
    else
      -- partial block, zero-padded on the right (memcpy + memset),
      -- then the aliased ghash_gmul(S, H, S)
      ghash_gmul_aliased (xorBlock s (data ++ List.replicate (16 - data.length) 0)) h

def ghash_update (s h data : List Nat) : List Nat :=
  ghashGo h data.length s data

/-! ## Length encoding (aes.c lines 758-771)

`encode_length` writes the 64-bit big-endian value into bytes 8..15 of the
block its argument points at.  Both GCM functions additionally call it with
the pointer `block + 8`, so those writes target bytes 16..23 of the named
16-byte array, i.e. past its end; in the embedding a pointer `block + 8`
becomes the 8-element tail `block.drop 8`, on which `List.set` at indices
8..15 is the identity, so the named array keeps its old bytes. -/

def encode_length (lenBits : Nat) (block : List Nat) : List Nat :=
  ((((((((block.set 8 ((lenBits >>> 56) % 256)).set 9 ((lenBits >>> 48) % 256)).set 10
    ((lenBits >>> 40) % 256)).set 11 ((lenBits >>> 32) % 256)).set 12
    ((lenBits >>> 24) % 256)).set 13 ((lenBits >>> 16) % 256)).set 14
    ((lenBits >>> 8) % 256)).set 15 (lenBits % 256))

/-! ## Constant-time comparison (aes.c lines 776-789) -/

def constant_time_memcmp (a b : List Nat) (num : Nat) : Nat :=
  let result := (List.range num).foldl (fun r i => r ||| ((a.getD i 0) ^^^ (b.getD i 0))) 0
  if result ≠ 0 then 1 else 0

/-! ## GCM helpers shared verbatim by AES_GCM_encrypt (aes.c lines 792-861)
and AES_GCM_decrypt (aes.c lines 863-939); the two functions contain
character-for-character identical code for H, J0 and the length blocks -/

-- H = E_K(0^128) (aes.c lines 804, 810 / 875, 882)
def gcm_H (roundKey : List Nat) : List Nat :=
  Cipher (List.replicate 16 0) roundKey

-- the IV-length block of the non-96-bit-IV path (aes.c lines 818-820 /
-- 890-892): `encode_length(iv_len_bits, len_block + 8)` writes past the end
-- of len_block, so the 16 named bytes stay zero; `(uint64_t)iv_len * 8`
-- wraps modulo 2^64
def gcm_len_block_iv (ivLen : Nat) : List Nat :=
  (List.replicate 16 0).take 8 ++
    encode_length ((ivLen * 8) % 2 ^ 64) ((List.replicate 16 0).drop 8)

-- J0 derivation (aes.c lines 813-829 / 885-901)
def gcm_J0 (roundKey iv : List Nat) : List Nat :=
  if iv.length = AES_GCM_IV_LEN then
    -- memcpy(J0, iv, 12); memset(J0+12, 0, 3); J0[15] = 1
    iv.take 12 ++ [0, 0, 0, 1]
  else
    let h := gcm_H roundKey
    let s1 := ghash_update (List.replicate 16 0) h iv
    ghash_update s1 h (gcm_len_block_iv iv.length)

-- the final length block (aes.c lines 850-852 / 913-915): the first call
-- writes the AAD bit length into bytes 8..15 of the block; the second call
-- goes through the pointer `final_len_block + 8` and its writes land past
-- the array, so the data (PT/CT) bit length never reaches the named block
def gcm_final_len_block (aadLen dataLen : Nat) : List Nat :=
  let b1 := encode_length ((aadLen * 8) % 2 ^ 64) (List.replicate 16 0)
  b1.take 8 ++ encode_length ((dataLen * 8) % 2 ^ 64) (b1.drop 8)

-- the GHASH accumulator driven over AAD, data (ciphertext) and the final
-- length block; these three ghash_update calls appear verbatim in both
-- AES_GCM_encrypt (lines 835, 847, 853) and AES_GCM_decrypt (lines 907,
-- 910, 916), encrypt passing (ct, pt_len) and decrypt passing (ct, ct_len)
def gcm_S (h aad data : List Nat) (aadLen dataLen : Nat) : List Nat :=
  ghash_update (ghash_update (ghash_update (List.replicate 16 0) h aad) h data)
    h (gcm_final_len_block aadLen dataLen)

/-! ## Argument model for the public API

A C caller passes each buffer as a pointer plus a separate length; `Buf`
keeps both shapes: `mem bytes` is a valid buffer whose supplied length is
the byte count, `null n` is a NULL pointer passed together with length `n`.
Dereferencing a NULL buffer (which the source only does for a NULL `iv`
with positive length, an undefined-behaviour case no theorem below relies
on) yields the empty byte list. -/

inductive Buf where
  | null : Nat → Buf
  | mem : List Nat → Buf
deriving DecidableEq

def Buf.len : Buf → Nat
  | .null n => n
  | .mem l => l.length

def Buf.isNull : Buf → Prop
  | .null _ => True
  | .mem _ => False

instance : DecidablePred Buf.isNull := fun b => by
  cases b <;> simp [Buf.isNull] <;> infer_instance

def Buf.bytes : Buf → List Nat
  | .null _ => []
  | .mem l => l

/-! ## AES_GCM_encrypt (aes.c lines 792-861)

Output buffers: `ctNull` / `tagNull` say whether the caller passed NULL for
the ciphertext and tag pointers.  On success the function returns the bytes
written to them; the argument-check failure returns `none` (C return -1). -/

def AES_GCM_encrypt (roundKey : List Nat) (iv aad pt : Buf)
    (ctNull tagNull : Bool) : Option (List Nat × List Nat) :=
  -- aes.c lines 798-800
  if iv.len = 0 ∨ (aad.isNull ∧ 0 < aad.len) ∨ (pt.isNull ∧ 0 < pt.len) ∨
      ctNull = true ∨ tagNull = true then
    none
  else
    let j0 := gcm_J0 roundKey iv.bytes
    let ek0 := Cipher j0 roundKey
    -- 4. CTR encryption over a copy of the plaintext with counter J0+1
    -- (lines 838-844; when pt_len = 0 the ct buffer is never written)
    let ct := if 0 < pt.len
              then AES_CTR_xcrypt_buffer roundKey (increment_counter_j0 j0) pt.bytes
              else []
    -- 3./5./6. GHASH over AAD, ciphertext (length pt_len) and length block
    -- 7. tag[i] = GCM_S[i] ^ EK0[i] (lines 856-858)
    some (ct, xorBlock (gcm_S (gcm_H roundKey) aad.bytes ct aad.len pt.len) ek0)

/-! ## AES_GCM_decrypt (aes.c lines 863-939)

`ptNull` says whether the caller passed NULL for the plaintext output
pointer and `ptbuf` holds that buffer's prior contents; the result pairs the
C return code with the buffer contents after the call (unchanged on -1,
first ct_len bytes zeroed on -3, decrypted bytes written on 0). -/

def AES_GCM_decrypt (roundKey : List Nat) (iv aad ct tag : Buf)
    (ptNull : Bool) (ptbuf : List Nat) : Int × List Nat :=
  -- aes.c lines 869-871
  if iv.len = 0 ∨ (aad.isNull ∧ 0 < aad.len) ∨ (ct.isNull ∧ 0 < ct.len) ∨
      ptNull = true ∨ tag.isNull then
    (-1, ptbuf)
  else
    let j0 := gcm_J0 roundKey iv.bytes
    let ek0 := Cipher j0 roundKey
    -- 3./4./5. GHASH over AAD, ciphertext and length block with ct_len
    -- (lines 907-916); 6. calculated_tag[i] = GCM_S[i] ^ EK0[i] (919-921)
    let calculatedTag := xorBlock (gcm_S (gcm_H roundKey) aad.bytes ct.bytes aad.len ct.len) ek0
    -- 7. constant-time compare; on mismatch memset(pt, 0, ct_len) (923-927)
    if constant_time_memcmp calculatedTag tag.bytes AES_GCM_TAG_LEN ≠ 0 then
      (-3, List.replicate ct.len 0 ++ ptbuf.drop ct.len)
    else
      -- 8. memcpy(pt, ct, ct_len) then in-place CTR (lines 930-936)
      (0, (if 0 < ct.len
           then AES_CTR_xcrypt_buffer roundKey (increment_counter_j0 j0) ct.bytes
           else []) ++ ptbuf.drop ct.len)

/-! ## List-level wrappers: all buffers valid, the caller's plaintext
output buffer is ct_len bytes (initially zero) -/

def gcmEncrypt (roundKey iv aad pt : List Nat) : Option (List Nat × List Nat) :=
  AES_GCM_encrypt roundKey (Buf.mem iv) (Buf.mem aad) (Buf.mem pt) false false

def gcmDecrypt (roundKey iv aad ct tag : List Nat) : Int × List Nat :=
  AES_GCM_decrypt roundKey (Buf.mem iv) (Buf.mem aad) (Buf.mem ct) (Buf.mem tag)
    false (List.replicate ct.length 0)

/-! ## Specification-side comparison definitions

Each definition below follows the words of the specification or of a claim,
for comparison against the code-derived definitions above; none of them is
used by the embedding itself. -/

/-- Modelled from the spec: the 8-byte big-endian encoding of a 64-bit
length value. -/
def be64 (n : Nat) : List Nat :=
  [(n >>> 56) % 256, (n >>> 48) % 256, (n >>> 40) % 256, (n >>> 32) % 256,
   (n >>> 24) % 256, (n >>> 16) % 256, (n >>> 8) % 256, n % 256]

/-- Modelled from the claim (C1): split the data into 16-byte blocks, the
final partial block zero-padded on the right; structurally recursive on a
byte-count fuel that never runs out. -/
def ghashBlocksGo : Nat → List Nat → List (List Nat)
  | 0, _ => []
  | fuel + 1, data =>
    if data.length = 0 then []
    else if data.length ≤ 16 then [data ++ List.replicate (16 - data.length) 0]
    else data.take 16 :: ghashBlocksGo fuel (data.drop 16)

def ghash_blocks (data : List Nat) : List (List Nat) :=
  ghashBlocksGo data.length data

/-- Modelled from the claim (C1): for each block B in order, the accumulator
S is replaced by GF_mul(S XOR B, H). -/
def ghash_update_spec (s h data : List Nat) : List Nat :=
  (ghash_blocks data).foldl (fun acc b => ghash_gmul (xorBlock acc b) h) s

/-- Modelled from the claim (C3): the keystream for each 16-byte block is
the AES encryption of that block's counter value, counters C, C+1, C+2, ...
with the rightmost 4 bytes incremented after each block. -/
def ctrSpecGo (roundKey : List Nat) : Nat → List Nat → List Nat → List Nat
  | 0, _, _ => []
  | fuel + 1, counter, buf =>
    if buf = [] then []
    else
      (List.zipWith Nat.xor (buf.take 16) (Cipher counter roundKey)) ++
        ctrSpecGo roundKey fuel (increment_counter_j0 counter) (buf.drop 16)

def AES_CTR_xcrypt_spec (roundKey counter buf : List Nat) : List Nat :=
  ctrSpecGo roundKey buf.length counter buf

/-- Modelled from the claim (C4): the final GHASH block is the 8-byte
big-endian AAD bit length followed by the 8-byte big-endian data bit
length. -/
def gcm_final_len_block_spec (aadLen dataLen : Nat) : List Nat :=
  be64 (aadLen * 8) ++ be64 (dataLen * 8)

/-- Modelled from the claim (C5): for an IV that is not 12 bytes, J0 is the
GHASH of the zero-padded IV followed by a block of 8 zero bytes and the
64-bit big-endian IV bit length, driven by two GHASH updates (with the
specification's GHASH semantics) over a freshly zeroed accumulator. -/
def gcm_J0_spec (roundKey iv : List Nat) : List Nat :=
  let h := gcm_H roundKey
  ghash_update_spec (ghash_update_spec (List.replicate 16 0) h iv) h
    (List.replicate 8 0 ++ be64 (iv.length * 8))

/-- Modelled from the claim (C9): InvalidArgument exactly when the IV length
is 0 or some buffer pointer is NULL while its supplied length is positive
(for encrypt the ct output shares the plaintext length and the tag length is
the fixed 16). -/
def specInvalidEncrypt (iv aad pt : Buf) (ctNull tagNull : Bool) : Prop :=
  iv.len = 0 ∨ (iv.isNull ∧ 0 < iv.len) ∨ (aad.isNull ∧ 0 < aad.len) ∨
    (pt.isNull ∧ 0 < pt.len) ∨ (ctNull = true ∧ 0 < pt.len) ∨
    (tagNull = true ∧ 0 < AES_GCM_TAG_LEN)

/-! ## Concrete vectors used by the closed theorems -/

-- the all-zero 368-byte round-key schedule
def zeroRoundKey : List Nat := List.replicate 368 0

-- flip bit k (value 2^k) of byte j of a buffer
def flipBit (l : List Nat) (j k : Nat) : List Nat :=
  l.set j ((l.getD j 0) ^^^ (1 <<< k))

/-! ## Supporting lemmas -/

@[simp] lemma Buf.len_mem (l : List Nat) : (Buf.mem l).len = l.length := rfl

@[simp] lemma Buf.isNull_mem (l : List Nat) : (Buf.mem l).isNull = False := rfl

@[simp] lemma Buf.bytes_mem (l : List Nat) : (Buf.mem l).bytes = l := rfl

lemma lor_eq_zero {a b : Nat} : a ||| b = 0 ↔ a = 0 ∧ b = 0 := by
  constructor
  · intro h
    have hb : ∀ i, Nat.testBit a i = false ∧ Nat.testBit b i = false := by
      intro i
      have hc := congrArg (fun n => Nat.testBit n i) h
      simpa [Nat.testBit_or] using hc
    exact ⟨Nat.eq_of_testBit_eq fun i => by simp [(hb i).1],
           Nat.eq_of_testBit_eq fun i => by simp [(hb i).2]⟩
  · rintro ⟨rfl, rfl⟩
    rfl

lemma constant_time_memcmp_eq_zero_iff (a b : List Nat) (n : Nat) :
    constant_time_memcmp a b n = 0 ↔ ∀ i < n, a.getD i 0 = b.getD i 0 := by
  have key : ∀ m : Nat,
      ((List.range m).foldl (fun r i => r ||| ((a.getD i 0) ^^^ (b.getD i 0))) 0 = 0
        ↔ ∀ i < m, a.getD i 0 = b.getD i 0) := by
    intro m
    induction m with
    | zero => simp
    | succ m ih =>
      rw [List.range_succ, List.foldl_append, List.foldl_cons, List.foldl_nil, lor_eq_zero]
      constructor
      · rintro ⟨h1, h2⟩ i hi
        rcases Nat.lt_succ_iff_lt_or_eq.mp hi with hlt | rfl
        · exact (ih.mp h1) i hlt
        · exact Nat.xor_eq_zero.mp h2
      · intro hall
        exact ⟨ih.mpr (fun i hi => hall i (Nat.lt_succ_of_lt hi)),
               Nat.xor_eq_zero.mpr (hall m (Nat.lt_succ_self m))⟩
  simp only [constant_time_memcmp]
  split
  · next hne =>
    constructor
    · intro h1
      exact absurd h1 one_ne_zero
    · intro hall
      exact absurd ((key n).mpr hall) hne
  · next hz =>
    simp only [true_iff]
    exact (key n).mp (not_not.mp hz)

lemma zipWith_xor_cancel : ∀ (a b : List Nat), a.length ≤ b.length →
    List.zipWith Nat.xor (List.zipWith Nat.xor a b) b = a
  | [], _, _ => by simp
  | x :: xs, [], h => by simp at h
  | x :: xs, y :: ys, h => by
    simp only [List.zipWith_cons_cons, List.cons.injEq]
    exact ⟨Nat.xor_cancel_right y x, zipWith_xor_cancel xs ys (by simpa using h)⟩

@[simp] lemma xorBlock_length (a b : List Nat) : (xorBlock a b).length = 16 := by
  simp [xorBlock]

lemma foldl_fst_pres {α : Type} (P : List Nat → Prop) (l : List α)
    (f : (List Nat × List Nat) → α → (List Nat × List Nat))
    (hf : ∀ p a, P p.1 → P (f p a).1) :
    ∀ (p0 : List Nat × List Nat), P p0.1 → P (l.foldl f p0).1 := by
  induction l with
  | nil => exact fun p0 h0 => h0
  | cons a l ih => exact fun p0 h0 => ih _ (hf p0 a h0)

lemma getD_replicate_zero : ∀ (n i : Nat), (List.replicate n (0 : Nat)).getD i 0 = 0
  | 0, 0 => rfl
  | 0, _ + 1 => rfl
  | _ + 1, 0 => rfl
  | n + 1, i + 1 => getD_replicate_zero n i

-- the aliased multiplication always returns the zero block: res starts
-- zeroed, so the bit test on the shared storage never fires
lemma ghash_gmul_aliased_eq (x y : List Nat) :
    ghash_gmul_aliased x y = List.replicate 16 0 := by
  unfold ghash_gmul_aliased
  refine foldl_fst_pres (fun l => l = List.replicate 16 0) _ _ ?_ _ rfl
  intro p i hp
  refine foldl_fst_pres (fun l => l = List.replicate 16 0) _ _ ?_ _ hp
  intro q j hq
  dsimp only
  rw [hq, getD_replicate_zero]
  simp

lemma ghash_gmul_aliased_length (x y : List Nat) :
    (ghash_gmul_aliased x y).length = 16 := by
  rw [ghash_gmul_aliased_eq]
  simp

lemma ghashGo_nil (h : List Nat) (fuel : Nat) (s : List Nat) :
    ghashGo h fuel s [] = s := by
  cases fuel <;> simp [ghashGo]

lemma ghashGo_length (h : List Nat) : ∀ (fuel : Nat) (s data : List Nat),
    s.length = 16 → (ghashGo h fuel s data).length = 16 := by
  intro fuel
  induction fuel with
  | zero => exact fun s data hs => hs
  | succ fuel ih =>
    intro s data hs
    simp only [ghashGo]
    split
    · exact ih _ _ (ghash_gmul_aliased_length _ _)
    · split
      · exact hs
      · exact ghash_gmul_aliased_length _ _

lemma ghash_update_length (s h data : List Nat) (hs : s.length = 16) :
    (ghash_update s h data).length = 16 :=
  ghashGo_length h data.length s data hs

lemma increment_length (c : List Nat) :
    (increment_counter_j0 c).length = c.length := by
  simp only [increment_counter_j0]
  split
  · simp
  · split
    · simp
    · split <;> simp

lemma gcm_J0_length (rk iv : List Nat) : (gcm_J0 rk iv).length = 16 := by
  unfold gcm_J0
  split
  · next h12 =>
    have : iv.length = 12 := h12
    simp [List.length_take, this]
  · exact ghash_update_length _ _ _ (ghash_update_length _ _ _ (by simp))

lemma ctrGo_nil (rk : List Nat) (fuel : Nat) (c : List Nat) :
    ctrGo rk fuel c [] = [] := by
  cases fuel <;> simp [ctrGo]

-- one-step unfolding of the loop body (the let-bindings reduce away)
lemma ctrGo_succ (rk : List Nat) (fuel : Nat) (c b : List Nat) :
    ctrGo rk (fuel + 1) c b =
      if b = [] then []
      else
        (List.zipWith Nat.xor (b.take 16) (increment_counter_j0 c)) ++
          ctrGo rk fuel (increment_counter_j0 c) (b.drop 16) := rfl

lemma ctrGo_length (rk : List Nat) : ∀ (fuel : Nat) (counter buf : List Nat),
    buf.length ≤ fuel → counter.length = 16 →
    (ctrGo rk fuel counter buf).length = buf.length := by
  intro fuel
  induction fuel with
  | zero =>
    intro c b hb _
    have : b = [] := List.eq_nil_of_length_eq_zero (Nat.le_zero.mp hb)
    subst this
    rfl
  | succ fuel ih =>
    intro c b hb hc
    by_cases hnil : b = []
    · subst hnil
      simp [ctrGo]
    · have hpos : 0 < b.length := List.length_pos.mpr hnil
      rw [ctrGo_succ, if_neg hnil]
      simp only [List.length_append, List.length_zipWith, List.length_take,
        increment_length, hc]
      rw [ih (increment_counter_j0 c) (b.drop 16)
            (by simp only [List.length_drop]; omega)
            (by rw [increment_length, hc])]
      simp only [List.length_drop]
      omega

lemma AES_CTR_xcrypt_buffer_length (rk counter buf : List Nat)
    (hc : counter.length = 16) :
    (AES_CTR_xcrypt_buffer rk counter buf).length = buf.length :=
  ctrGo_length rk buf.length counter buf (le_refl _) hc

lemma ctrGo_involution (rk : List Nat) : ∀ (fuel : Nat) (counter buf : List Nat),
    buf.length ≤ fuel → counter.length = 16 →
    ctrGo rk fuel counter (ctrGo rk fuel counter buf) = buf := by
  intro fuel
  induction fuel with
  | zero =>
    intro c b hb _
    have : b = [] := List.eq_nil_of_length_eq_zero (Nat.le_zero.mp hb)
    subst this
    rfl
  | succ fuel ih =>
    intro c b hb hc
    by_cases hnil : b = []
    · subst hnil
      simp [ctrGo]
    · have hpos : 0 < b.length := List.length_pos.mpr hnil
      have hnext : (increment_counter_j0 c).length = 16 := by
        rw [increment_length, hc]
      have hin : ctrGo rk (fuel + 1) c b =
          (List.zipWith Nat.xor (b.take 16) (increment_counter_j0 c)) ++
            ctrGo rk fuel (increment_counter_j0 c) (b.drop 16) := by
        rw [ctrGo_succ, if_neg hnil]
      by_cases hle : b.length ≤ 16
      · have hdrop : b.drop 16 = [] := List.drop_eq_nil_of_le (by omega)
        have hin2 : ctrGo rk (fuel + 1) c b =
            List.zipWith Nat.xor b (increment_counter_j0 c) := by
          rw [hin, hdrop, ctrGo_nil, List.append_nil, List.take_of_length_le hle]
        have hblen : (List.zipWith Nat.xor b (increment_counter_j0 c)).length ≤ 16 := by
          rw [List.length_zipWith, hnext]
          omega
        have hbne : List.zipWith Nat.xor b (increment_counter_j0 c) ≠ [] := by
          intro hcon
          have hlencon := congrArg List.length hcon
          rw [List.length_zipWith, hnext] at hlencon
          simp only [List.length_nil] at hlencon
          omega
        rw [hin2, ctrGo_succ, if_neg hbne, List.drop_eq_nil_of_le hblen, ctrGo_nil,
            List.append_nil, List.take_of_length_le hblen]
        exact zipWith_xor_cancel b (increment_counter_j0 c) (by rw [hnext]; exact hle)
      · have hblk16 : (List.zipWith Nat.xor (b.take 16) (increment_counter_j0 c)).length = 16 := by
          rw [List.length_zipWith, List.length_take, hnext]
          omega
        have hinner_ne : (List.zipWith Nat.xor (b.take 16) (increment_counter_j0 c)) ++
            ctrGo rk fuel (increment_counter_j0 c) (b.drop 16) ≠ [] := by
          intro hcon
          have hlencon := congrArg List.length hcon
          rw [List.length_append, hblk16] at hlencon
          simp at hlencon
        rw [hin, ctrGo_succ, if_neg hinner_ne, List.take_left' hblk16, List.drop_left' hblk16,
            zipWith_xor_cancel (b.take 16) (increment_counter_j0 c)
              (by rw [List.length_take, hnext]; omega),
            ih (increment_counter_j0 c) (b.drop 16)
              (by simp only [List.length_drop]; omega) hnext]
        exact List.take_append_drop 16 b

lemma AES_CTR_xcrypt_involution (rk counter buf : List Nat)
    (hc : counter.length = 16) :
    AES_CTR_xcrypt_buffer rk counter (AES_CTR_xcrypt_buffer rk counter buf) = buf := by
  unfold AES_CTR_xcrypt_buffer
  rw [ctrGo_length rk buf.length counter buf (le_refl _) hc]
  exact ctrGo_involution rk buf.length counter buf (le_refl _) hc

-- one-step unfolding of the ghash_update loop body
lemma ghashGo_succ (h : List Nat) (fuel : Nat) (s data : List Nat) :
    ghashGo h (fuel + 1) s data =
      if 16 ≤ data.length then
        ghashGo h fuel (ghash_gmul_aliased (xorBlock s (data.take 16)) h) (data.drop 16)
      else if data.length = 0 then s
      else ghash_gmul_aliased (xorBlock s (data ++ List.replicate (16 - data.length) 0)) h := rfl

-- for every nonempty input the updated accumulator is the zero block,
-- because every path ends in the aliased multiplication
lemma ghashGo_zeroed (h : List Nat) : ∀ (fuel : Nat) (s data : List Nat),
    data.length ≤ fuel → data ≠ [] →
    ghashGo h fuel s data = List.replicate 16 0 := by
  intro fuel
  induction fuel with
  | zero =>
    intro s data hd hne
    exact absurd (List.eq_nil_of_length_eq_zero (Nat.le_zero.mp hd)) hne
  | succ fuel ih =>
    intro s data hd hne
    rw [ghashGo_succ]
    by_cases h16 : 16 ≤ data.length
    · rw [if_pos h16]
      by_cases hdrop : data.drop 16 = []
      · rw [hdrop, ghashGo_nil]
        exact ghash_gmul_aliased_eq _ _
      · exact ih _ _ (by simp only [List.length_drop]; omega) hdrop
    · rw [if_neg h16,
        if_neg (fun h0 => hne (List.eq_nil_of_length_eq_zero h0))]
      exact ghash_gmul_aliased_eq _ _

lemma gcmEncrypt_some {rk iv aad pt ct tag : List Nat}
    (h : gcmEncrypt rk iv aad pt = some (ct, tag)) :
    iv.length ≠ 0 ∧
    ct = (if 0 < pt.length
          then AES_CTR_xcrypt_buffer rk (increment_counter_j0 (gcm_J0 rk iv)) pt
          else []) ∧
    tag = xorBlock (gcm_S (gcm_H rk) aad ct aad.length pt.length)
            (Cipher (gcm_J0 rk iv) rk) := by
  unfold gcmEncrypt AES_GCM_encrypt at h
  simp only [Buf.len_mem, Buf.isNull_mem, Buf.bytes_mem, false_and, or_false,
    false_or, Bool.false_eq_true] at h
  split at h
  · exact absurd h (by simp)
  · next hiv =>
    rw [Option.some.injEq, Prod.mk.injEq] at h
    obtain ⟨hct, htag⟩ := h
    subst hct
    exact ⟨hiv, rfl, htag.symm⟩

-- unfolding of AES_GCM_encrypt with the let-bindings reduced away
lemma AES_GCM_encrypt_eq (rk : List Nat) (iv aad pt : Buf) (ctN tagN : Bool) :
    AES_GCM_encrypt rk iv aad pt ctN tagN =
      if iv.len = 0 ∨ (aad.isNull ∧ 0 < aad.len) ∨ (pt.isNull ∧ 0 < pt.len) ∨
          ctN = true ∨ tagN = true then
        none
      else
        some (if 0 < pt.len
              then AES_CTR_xcrypt_buffer rk (increment_counter_j0 (gcm_J0 rk iv.bytes)) pt.bytes
              else [],
          xorBlock
            (gcm_S (gcm_H rk) aad.bytes
              (if 0 < pt.len
               then AES_CTR_xcrypt_buffer rk (increment_counter_j0 (gcm_J0 rk iv.bytes)) pt.bytes
               else [])
              aad.len pt.len)
            (Cipher (gcm_J0 rk iv.bytes) rk)) := rfl

-- unfolding of AES_GCM_decrypt with the let-bindings reduced away
lemma AES_GCM_decrypt_eq (rk : List Nat) (iv aad ct tag : Buf) (ptN : Bool)
    (ptbuf : List Nat) :
    AES_GCM_decrypt rk iv aad ct tag ptN ptbuf =
      if iv.len = 0 ∨ (aad.isNull ∧ 0 < aad.len) ∨ (ct.isNull ∧ 0 < ct.len) ∨
          ptN = true ∨ tag.isNull then
        (-1, ptbuf)
      else if constant_time_memcmp
          (xorBlock (gcm_S (gcm_H rk) aad.bytes ct.bytes aad.len ct.len)
            (Cipher (gcm_J0 rk iv.bytes) rk)) tag.bytes AES_GCM_TAG_LEN ≠ 0 then
        (-3, List.replicate ct.len 0 ++ ptbuf.drop ct.len)
      else
        (0, (if 0 < ct.len
             then AES_CTR_xcrypt_buffer rk (increment_counter_j0 (gcm_J0 rk iv.bytes)) ct.bytes
             else []) ++ ptbuf.drop ct.len) := rfl

lemma gcmDecrypt_eval (rk iv aad ct tag : List Nat) (hiv : iv.length ≠ 0) :
    gcmDecrypt rk iv aad ct tag =
      if constant_time_memcmp
          (xorBlock (gcm_S (gcm_H rk) aad ct aad.length ct.length)
            (Cipher (gcm_J0 rk iv) rk)) tag AES_GCM_TAG_LEN ≠ 0 then
        (-3, List.replicate ct.length 0)
      else
        (0, if 0 < ct.length
            then AES_CTR_xcrypt_buffer rk (increment_counter_j0 (gcm_J0 rk iv)) ct
            else []) := by
  unfold gcmDecrypt AES_GCM_decrypt
  simp only [Buf.len_mem, Buf.isNull_mem, Buf.bytes_mem, false_and, or_false,
    false_or, Bool.false_eq_true]
  rw [if_neg hiv]
  have hdrop : (List.replicate ct.length (0 : Nat)).drop ct.length = [] := by
    simp
  rw [hdrop]
  split <;> simp

/-! ## Claim theorems -/

/-- C1: the claim says ghash_update folds S ← GF_mul(S XOR B, H) over the
16-byte blocks with GF_mul the bit-serial reference multiplication.  Both
multiplications in the code are the aliased call ghash_gmul(S, H, S), whose
initial memset(res, 0, 16) erases its own input before any bit of it is
read, so ghash_update returns the all-zero block for every nonempty input
(only the zero-length no-op part of the claim holds); it differs from the
claimed fold already at S = 0^16, H = x^0 (byte 0 = 0x80), D = [1]. -/
theorem C1_ghash_update_zeroed :
    (∀ s h b data, ghash_update s h (b :: data) = List.replicate 16 0) ∧
    (∀ s h : List Nat, ghash_update s h [] = s) ∧
    ghash_update (List.replicate 16 0) (128 :: List.replicate 15 0) [1] =
      List.replicate 16 0 ∧
    ghash_update_spec (List.replicate 16 0) (128 :: List.replicate 15 0) [1] =
      1 :: List.replicate 15 0 ∧
    ghash_update (List.replicate 16 0) (128 :: List.replicate 15 0) [1] ≠
      ghash_update_spec (List.replicate 16 0) (128 :: List.replicate 15 0) [1] := by
  have hzero : ∀ s h b data, ghash_update s h (b :: data) = List.replicate 16 0 := by
    intro s h b data
    exact ghashGo_zeroed h (b :: data).length s (b :: data) (le_refl _) (by simp)
  have hcode : ghash_update (List.replicate 16 0) (128 :: List.replicate 15 0) [1] =
      List.replicate 16 0 := hzero _ _ _ _
  have hspec : ghash_update_spec (List.replicate 16 0) (128 :: List.replicate 15 0) [1] =
      1 :: List.replicate 15 0 := by rfl
  refine ⟨hzero, fun s h => rfl, hcode, hspec, ?_⟩
  rw [hcode, hspec]
  decide

/-- C3: the claim says AES_CTR_xcrypt_buffer XORs the buffer with the AES
encryptions of the counter blocks.  In the code the encrypted block is
overwritten by the incremented raw counter before it is used, so on the
all-zero 16-byte buffer with the all-zero counter and all-zero schedule the
function XORs in the raw counter value 1 (last byte), while the claimed
keystream AES_K(counter) is sixteen 0x20 bytes. -/
theorem C3_ctr_keystream_bug :
    AES_CTR_xcrypt_buffer zeroRoundKey (List.replicate 16 0) (List.replicate 16 0) =
      List.replicate 15 0 ++ [1] ∧
    AES_CTR_xcrypt_spec zeroRoundKey (List.replicate 16 0) (List.replicate 16 0) =
      List.replicate 16 32 ∧
    (List.replicate 15 0 ++ [1] : List Nat) ≠ List.replicate 16 32 :=
  ⟨by rfl, by rfl, by decide⟩

/-- C4: the final GHASH block should be be64(aad bits) ∥ be64(data bits);
because encode_length always writes bytes 8..15 of its argument and the
second call is made through the pointer final_len_block + 8, the block the
code actually absorbs is 0^8 ∥ be64(aad bits) for every aad_len and
data_len, and it differs from the claimed block already at
aad_len = 0, data_len = 1. -/
theorem C4_final_len_block_bug :
    (∀ aadLen dataLen : Nat,
      gcm_final_len_block aadLen dataLen =
        List.replicate 8 0 ++ be64 ((aadLen * 8) % 2 ^ 64)) ∧
    gcm_final_len_block 0 1 = List.replicate 16 0 ∧
    gcm_final_len_block_spec 0 1 = List.replicate 15 0 ++ [8] ∧
    gcm_final_len_block 0 1 ≠ gcm_final_len_block_spec 0 1 :=
  ⟨fun _ _ => rfl, by rfl, by rfl, by decide⟩

/-- C5: for a non-12-byte IV the code does drive J0 by two ghash_update
calls over a zeroed accumulator, but the second call hashes an all-zero
16-byte block — encode_length(iv_len_bits, len_block + 8) writes past the
end of len_block — instead of 0^8 ∥ be64(8·|IV|); for the all-zero 16-byte
IV under the all-zero schedule the resulting J0 differs from the claimed
GHASH value. -/
theorem C5_j0_len_block_bug :
    (∀ n : Nat, gcm_len_block_iv n = List.replicate 16 0) ∧
    gcm_J0 zeroRoundKey (List.replicate 16 0) = List.replicate 16 0 ∧
    gcm_J0_spec zeroRoundKey (List.replicate 16 0) =
      [56, 120, 120, 120, 120, 120, 120, 120, 120, 120, 120, 120, 120, 120, 120, 96] ∧
    gcm_J0 zeroRoundKey (List.replicate 16 0) ≠
      gcm_J0_spec zeroRoundKey (List.replicate 16 0) := by
  have h1 : gcm_J0 zeroRoundKey (List.replicate 16 0) = List.replicate 16 0 := by rfl
  have h2 : gcm_J0_spec zeroRoundKey (List.replicate 16 0) =
      [56, 120, 120, 120, 120, 120, 120, 120, 120, 120, 120, 120, 120, 120, 120, 96] := by
    rfl
  refine ⟨fun _ => rfl, h1, h2, ?_⟩
  rw [h1, h2]
  decide

/-- C6: the claim says the compiled 22-round, 64-byte-key configuration has
Nk = 64/4 = 16.  aes.h (testing AES512 first) selects AES_KEYLEN = 64 and
Nr = 22, but aes.c (testing AES256 first) selects Nk = 8, so KeyExpansion's
initial loop copies only Nk*4 = 32 of the 64 key bytes. -/
theorem C6_config_mismatch :
    Nk = 8 ∧ Nr = 22 ∧ AES_KEYLEN = 64 ∧ AES_KEYLEN / 4 = 16 ∧
    Nk ≠ AES_KEYLEN / 4 ∧ Nk * 4 = 32 := by
  decide

/-- C10: with the compiled Nk = 8 and Nr = 22, the word indices i with
i % Nk = 0 reach i = 88 < 4·23, where Rcon[i/Nk] = Rcon[11] is one past the
end of the 11-entry table; the Option-valued embedding of KeyExpansion
therefore returns none (the error branch is reached), already on the
all-zero 64-byte key. -/
theorem C10_rcon_overread :
    KeyExpansion (List.replicate 64 0) = none ∧
    Rcon.length = 11 ∧ 88 % Nk = 0 ∧ 88 / Nk = 11 ∧
    Nk ≤ 88 ∧ 88 < Nb * (Nr + 1) :=
  ⟨by rfl, by rfl, by rfl, by rfl, by decide, by decide⟩

/-- C7: whenever AES_GCM_encrypt succeeds on (ctx, IV, AAD, PT) with output
(CT, Tag) — which for valid in-memory buffers means iv_len ≥ 1 —
AES_GCM_decrypt on (ctx, IV, AAD, CT, Tag) returns success (0) and writes a
plaintext buffer equal to PT. -/
theorem C7_round_trip (rk iv aad pt ct tag : List Nat)
    (henc : gcmEncrypt rk iv aad pt = some (ct, tag)) :
    gcmDecrypt rk iv aad ct tag = (0, pt) := by
  obtain ⟨hiv, hct, htag⟩ := gcmEncrypt_some henc
  have hj0 : (gcm_J0 rk iv).length = 16 := gcm_J0_length rk iv
  have hcnt : (increment_counter_j0 (gcm_J0 rk iv)).length = 16 := by
    rw [increment_length, hj0]
  have hctlen : ct.length = pt.length := by
    rw [hct]
    split
    · exact AES_CTR_xcrypt_buffer_length rk _ pt hcnt
    · next hpt => simp only [List.length_nil]; omega
  have hmem : constant_time_memcmp tag tag AES_GCM_TAG_LEN = 0 :=
    (constant_time_memcmp_eq_zero_iff tag tag AES_GCM_TAG_LEN).mpr (fun i _ => rfl)
  rw [gcmDecrypt_eval rk iv aad ct tag hiv, hctlen, ← htag,
    if_neg (not_not.mpr hmem)]
  by_cases hpt : 0 < pt.length
  · rw [if_pos hpt, hct, if_pos hpt,
      AES_CTR_xcrypt_involution rk (increment_counter_j0 (gcm_J0 rk iv)) pt hcnt]
  · rw [if_neg hpt, List.eq_nil_of_length_eq_zero (by omega : pt.length = 0)]

/-- C7 witness: a concrete round trip under the all-zero schedule with a
12-byte IV, 1-byte AAD and 1-byte plaintext. -/
theorem C7_round_trip_witness :
    gcmDecrypt zeroRoundKey (List.replicate 12 0) [1] [5]
      [224, 232, 167, 21, 218, 107, 121, 192, 243, 223, 70, 173, 139, 118, 156, 49] =
      (0, [5]) :=
  C7_round_trip zeroRoundKey (List.replicate 12 0) [1] [5] [5]
    [224, 232, 167, 21, 218, 107, 121, 192, 243, 223, 70, 173, 139, 118, 156, 49] (by rfl)

/-- C2: encrypting PT = [0] under the all-zero schedule and 12-byte zero IV
succeeds with CT = [0]; flipping the single bit of CT (giving [1]) and
decrypting returns 0 (success) instead of AuthenticationFailed.  Because
the GHASH accumulator is identically zero (see C1), the tag equals
AES_K(J0) and is insensitive to CT and AAD entirely. -/
theorem C2_ct_flip_accepted :
    gcmEncrypt zeroRoundKey (List.replicate 12 0) [] [0] =
      some ([0], [224, 232, 167, 21, 218, 107, 121, 192, 243, 223, 70, 173, 139, 118, 156, 49]) ∧
    flipBit [0] 0 0 = [1] ∧
    (gcmDecrypt zeroRoundKey (List.replicate 12 0) [] [1]
      [224, 232, 167, 21, 218, 107, 121, 192, 243, 223, 70, 173, 139, 118, 156, 49]).1 = 0 :=
  ⟨by rfl, by rfl, by rfl⟩

/-- C8: whenever AES_GCM_decrypt returns AuthenticationFailed (-3), the
first ct_len bytes of the caller's plaintext buffer are all 0x00 on return
(in the pure model the -3 result is built from the zero block directly, so
no plaintext-derived byte is ever placed there). -/
theorem C8_zeroed_on_auth_failure (rk : List Nat) (iv aad ct tag : Buf)
    (ptN : Bool) (ptbuf : List Nat)
    (hfail : (AES_GCM_decrypt rk iv aad ct tag ptN ptbuf).1 = -3) :
    ((AES_GCM_decrypt rk iv aad ct tag ptN ptbuf).2).take ct.len =
      List.replicate ct.len 0 := by
  rw [AES_GCM_decrypt_eq] at hfail ⊢
  by_cases hval : iv.len = 0 ∨ (aad.isNull ∧ 0 < aad.len) ∨
      (ct.isNull ∧ 0 < ct.len) ∨ ptN = true ∨ tag.isNull
  · rw [if_pos hval] at hfail
    exact absurd (show (-1 : Int) = -3 from hfail) (by decide)
  · rw [if_neg hval] at hfail ⊢
    by_cases hmem : constant_time_memcmp
        (xorBlock (gcm_S (gcm_H rk) aad.bytes ct.bytes aad.len ct.len)
          (Cipher (gcm_J0 rk iv.bytes) rk)) tag.bytes AES_GCM_TAG_LEN ≠ 0
    · rw [if_pos hmem]
      exact List.take_left' (by simp)
    · rw [if_neg hmem] at hfail
      exact absurd (show (0 : Int) = -3 from hfail) (by decide)

/-- C8 witness: a concrete failing decrypt (wrong all-zero tag, one
ciphertext byte, prior buffer contents 7) returns -3 with the byte zeroed. -/
theorem C8_zeroed_witness :
    ((AES_GCM_decrypt zeroRoundKey (Buf.mem (List.replicate 12 0)) (Buf.mem [])
        (Buf.mem [0]) (Buf.mem (List.replicate 16 0)) false [7]).2).take 1 = [0] :=
  C8_zeroed_on_auth_failure zeroRoundKey (Buf.mem (List.replicate 12 0)) (Buf.mem [])
    (Buf.mem [0]) (Buf.mem (List.replicate 16 0)) false [7] (by rfl)

/-- C9 (amended): the two functions return InvalidArgument (-1/none)
exactly when iv_len = 0, or an input buffer (aad, and pt for encrypt / ct
for decrypt) is NULL with positive supplied length, or an output pointer
(ct and tag for encrypt / pt and tag for decrypt) is NULL regardless of the
associated length; on that path decrypt leaves the caller's plaintext
buffer unchanged.  (A NULL iv with positive length is not checked at all.) -/
theorem C9_invalid_argument (rk : List Nat) (iv aad pt ct tag : Buf)
    (ctN tagN ptN : Bool) (ptbuf : List Nat) :
    (AES_GCM_encrypt rk iv aad pt ctN tagN = none ↔
      (iv.len = 0 ∨ (aad.isNull ∧ 0 < aad.len) ∨ (pt.isNull ∧ 0 < pt.len) ∨
        ctN = true ∨ tagN = true)) ∧
    ((AES_GCM_decrypt rk iv aad ct tag ptN ptbuf).1 = -1 ↔
      (iv.len = 0 ∨ (aad.isNull ∧ 0 < aad.len) ∨ (ct.isNull ∧ 0 < ct.len) ∨
        ptN = true ∨ tag.isNull)) ∧
    ((AES_GCM_decrypt rk iv aad ct tag ptN ptbuf).1 = -1 →
      (AES_GCM_decrypt rk iv aad ct tag ptN ptbuf).2 = ptbuf) := by
  refine ⟨?_, ?_, ?_⟩
  · rw [AES_GCM_encrypt_eq]
    split
    · next hc => simp [hc]
    · next hc => simp [hc]
  · rw [AES_GCM_decrypt_eq]
    split
    · next hc => simp [hc]
    · next hc =>
      split
      · exact ⟨fun h3 => absurd (show (-3 : Int) = -1 from h3) (by decide),
               fun hcc => absurd hcc hc⟩
      · exact ⟨fun h0 => absurd (show (0 : Int) = -1 from h0) (by decide),
               fun hcc => absurd hcc hc⟩
  · rw [AES_GCM_decrypt_eq]
    split
    · intro _
      rfl
    · split
      · intro h3
        exact absurd (show (-3 : Int) = -1 from h3) (by decide)
      · intro h0
        exact absurd (show (0 : Int) = -1 from h0) (by decide)

/-- C9 counterexample: with a valid 12-byte IV, empty AAD and PT, a NULL ct
output pointer and a valid tag pointer, the supplied length of the ct
buffer (pt_len) is 0, so the claim's condition — iv_len = 0 or a NULL
pointer with positive supplied length — does not hold, yet AES_GCM_encrypt
returns InvalidArgument. -/
theorem C9_counterexample :
    AES_GCM_encrypt [] (Buf.mem (List.replicate 12 0)) (Buf.mem []) (Buf.mem [])
      true false = none ∧
    ¬ specInvalidEncrypt (Buf.mem (List.replicate 12 0)) (Buf.mem []) (Buf.mem [])
      true false := by
  constructor
  · rfl
  · intro hcon
    simp [specInvalidEncrypt, AES_GCM_TAG_LEN] at hcon

/-- C9 witness: a concrete InvalidArgument call (empty IV) leaves the
caller's plaintext buffer unchanged. -/
theorem C9_invalid_argument_witness :
    (AES_GCM_decrypt [] (Buf.mem []) (Buf.mem []) (Buf.mem []) (Buf.mem [])
      false [9]).2 = [9] :=
  (C9_invalid_argument [] (Buf.mem []) (Buf.mem []) (Buf.mem []) (Buf.mem [])
    (Buf.mem []) false false false [9]).2.2 (by rfl)

end AESGCM
